import Mathlib

/-!
Verification development for the numeric analysis engine of the
stats-visualizer repository: input parsing and validation
(`src/utils/validation.ts`), dataset cleaning (same file), descriptive
statistics (`statistics` utilities re-exported through
`src/hooks/useMobileOptimized.ts`), histogram binning
(`src/components/Histogram.tsx`), and kernel density estimation
(`calculateKDE`).

Modelling conventions:
* JavaScript numbers are modelled by an explicit sum type `JsNum α`
  separating NaN and the two infinities from finite values; the finite
  payload is `ℚ` in the (exact, computable) parsing layer and `ℝ` in the
  statistics layer.  IEEE-754 rounding is idealised to exact arithmetic;
  every NaN/Infinity-producing operation of the source that a claim
  depends on (division by zero, comparisons with NaN) is modelled
  explicitly.
* JavaScript has a signed zero; none of the divisions modelled here can
  receive a negative zero divisor (divisors are `stdDev = √variance ≥ 0`,
  `binWidth = (max-min)/bins` with `max ≥ min`, and `n-1 ≥ 0`), so the
  model uses a single zero.
* Thrown exceptions are modelled with `Except String`, carrying the
  exact message string of the source.
-/

/-- JavaScript number with NaN and infinities made explicit.
`inf true` is negative infinity, `inf false` positive infinity. -/
inductive JsNum (α : Type) where
  | nan : JsNum α
  | inf : Bool → JsNum α
  | num : α → JsNum α
  deriving DecidableEq, Repr

/-- `Number.isNaN` on a `JsNum`. -/
def JsNum.isNaN {α : Type} : JsNum α → Bool
  | .nan => true
  | _ => false

/-! ## Input parser and validator (`src/utils/validation.ts`) -/

/-- The JavaScript `\s` character class (ECMA-262 WhiteSpace and
LineTerminator characters), used both by `String.prototype.trim` and by
the delimiter regex `[,;\s\n\t]+` of the source. -/
def isJsWhitespace (c : Char) : Bool :=
  c = ' ' || c = '\t' || c = '\n' || c = '\r' ||
  c.val = 0x0B || c.val = 0x0C || c.val = 0xA0 || c.val = 0x1680 ||
  (0x2000 ≤ c.val && c.val ≤ 0x200A) || c.val = 0x2028 || c.val = 0x2029 ||
  c.val = 0x202F || c.val = 0x205F || c.val = 0x3000 || c.val = 0xFEFF

/-- One character of the source's delimiter class `[,;\s\n\t]+`
(`validation.ts` lines 29 and 53).  Note: only the ASCII comma and
semicolon appear; the full-width characters U+FF0C and U+FF1B are not in
the class and are not whitespace. -/
def isDelimiter (c : Char) : Bool :=
  c = ',' || c = ';' || isJsWhitespace c

/-- `String.prototype.trim`: drop leading and trailing JS whitespace. -/
def jsTrim (s : String) : String :=
  String.mk (((s.toList.dropWhile isJsWhitespace).reverse.dropWhile
    isJsWhitespace).reverse)

/-- Maximal runs of non-delimiter characters.  `split(/[,;\s\n\t]+/)`
produces these runs plus possibly empty strings at the two ends, which
the source's `.filter(val => val.length > 0)` discards; splitting a
regex *run* is the same as splitting on single delimiter characters and
dropping the empty pieces. -/
def tokenRuns : List Char → List Char → List (List Char)
  | [], acc => if acc.isEmpty then [] else [acc.reverse]
  | c :: cs, acc =>
    if isDelimiter c then
      if acc.isEmpty then tokenRuns cs [] else acc.reverse :: tokenRuns cs []
    else tokenRuns cs (c :: acc)

/-- The token pipeline shared by `validateNumericInput` and
`parseNumericInput`: `input.split(/[,;\s\n\t]+/).map(v => v.trim())
.filter(v => v.length > 0)`.  (The trim is the identity on the runs,
since every trimmable character is a delimiter, but it is kept to mirror
the source.) -/
def tokenize (s : String) : List String :=
  (((tokenRuns s.toList []).map (fun cs => jsTrim (String.mk cs))).filter
    (fun t => t.length > 0))

/-- Digit run to natural number. -/
def digitsToNat (ds : List Char) : ℕ :=
  ds.foldl (fun acc d => acc * 10 + (d.toNat - '0'.toNat)) 0

/-- Value of a fractional digit run. -/
def fracToQ (ds : List Char) : ℚ :=
  (digitsToNat ds : ℚ) / (10 : ℚ) ^ ds.length

/-- Signed digit run after the `e`/`E` of an ExponentPart. -/
def expTail (cs : List Char) : ℤ :=
  match cs with
  | '+' :: r =>
    let ds := r.takeWhile Char.isDigit
    if ds.isEmpty then 0 else (digitsToNat ds : ℤ)
  | '-' :: r =>
    let ds := r.takeWhile Char.isDigit
    if ds.isEmpty then 0 else -(digitsToNat ds : ℤ)
  | r =>
    let ds := r.takeWhile Char.isDigit
    if ds.isEmpty then 0 else (digitsToNat ds : ℤ)

/-- Value of the optional ExponentPart of a StrDecimalLiteral.  If the
`e`/`E` is not followed by at least one digit, `parseFloat` does not
consume it and the exponent is 0. -/
def expValue (cs : List Char) : ℤ :=
  match cs with
  | 'e' :: rest => expTail rest
  | 'E' :: rest => expTail rest
  | _ => 0

/-- Apply an optional leading minus sign. -/
def applySign (neg : Bool) (q : ℚ) : ℚ := if neg then -q else q

/-- The unsigned part of ECMA-262 `parseFloat`: the literal `Infinity`,
or `DecimalDigits [. DecimalDigits] [ExponentPart]`, or
`. DecimalDigits [ExponentPart]`; the longest valid prefix is taken and
trailing characters are ignored; NaN when no prefix parses. -/
def parseFloatUnsigned (cs : List Char) (neg : Bool) : JsNum ℚ :=
  if cs.take 8 = "Infinity".toList then JsNum.inf neg
  else
    let ip := cs.takeWhile Char.isDigit
    let r1 := cs.dropWhile Char.isDigit
    match r1 with
    | '.' :: r2 =>
      let fp := r2.takeWhile Char.isDigit
      let r3 := r2.dropWhile Char.isDigit
      if ip.isEmpty && fp.isEmpty then JsNum.nan
      else JsNum.num (applySign neg
        (((digitsToNat ip : ℚ) + fracToQ fp) * (10 : ℚ) ^ expValue r3))
    | _ =>
      if ip.isEmpty then JsNum.nan
      else JsNum.num (applySign neg ((digitsToNat ip : ℚ) * (10 : ℚ) ^ expValue r1))

/-- ECMA-262 `parseFloat`: skip leading whitespace, optional sign, then
the longest StrDecimalLiteral prefix; NaN when none exists.  The value
is exact (`ℚ`) rather than rounded to binary64; the inputs appearing in
the claims are exactly representable, so no behaviour depends on the
idealisation. -/
def jsParseFloat (s : String) : JsNum ℚ :=
  match s.toList.dropWhile isJsWhitespace with
  | '+' :: r => parseFloatUnsigned r false
  | '-' :: r => parseFloatUnsigned r true
  | cs => parseFloatUnsigned cs false

/-- Modelled from the spec's words, for comparison with the code's
NaN test (claim C7): a token that "parses as a finite decimal number
(leading sign and fractional part allowed)" — an optional sign followed
by decimal digits with an optional fractional part, spanning the entire
token.  This is the spec's grammar, not the source's `parseFloat`, which
additionally accepts `Infinity`, exponents and trailing garbage. -/
def isFiniteDecimalToken (s : String) : Bool :=
  let cs :=
    match s.toList with
    | '+' :: r => r
    | '-' :: r => r
    | r => r
  let ip := cs.takeWhile Char.isDigit
  let rest := cs.dropWhile Char.isDigit
  match rest with
  | [] => !ip.isEmpty
  | '.' :: fp => (!ip.isEmpty || !fp.isEmpty) && fp.all Char.isDigit
  | _ => false

/-- `ValidationResult` of `validation.ts`.  `warnings` is declared
optional in the source and never set by `validateNumericInput`. -/
structure ValidationResult where
  isValid : Bool
  errors : List String
  warnings : Option (List String)
  deriving DecidableEq, Repr

/-- The error-collecting loop of `validateNumericInput` (lines 33-39):
for each token in order, push `"Invalid number: <token>"` when
`parseFloat` yields NaN. -/
def collectTokenErrors : List String → List String
  | [] => []
  | v :: vs =>
    if (jsParseFloat v).isNaN then
      ("Invalid number: " ++ v) :: collectTokenErrors vs
    else collectTokenErrors vs

/-- `validateNumericInput` (`validation.ts` lines 15-42).  `!input ||
input.trim() === ''` is the single test `jsTrim input = ""` (the empty
string trims to itself).  `isValid` ends up true exactly when no error
was pushed. -/
def validateNumericInput (input : String) : ValidationResult :=
  if jsTrim input = "" then
    ValidationResult.mk false ["Input cannot be empty"] none
  else
    let values := tokenize input
    let errs := collectTokenErrors values
    ValidationResult.mk errs.isEmpty errs none

/-- `parseNumericInput` (`validation.ts` lines 44-57): re-validate,
throw `Invalid input: <joined errors>` on failure, otherwise re-run the
token pipeline and `parseFloat` each token. -/
def parseNumericInput (input : String) : Except String (List (JsNum ℚ)) :=
  let validation := validateNumericInput input
  if validation.isValid then
    Except.ok ((tokenize input).map jsParseFloat)
  else
    Except.error ("Invalid input: " ++ String.intercalate ", " validation.errors)

/-! ## Statistics engine (`statistics` utilities of the repository,
mirrored through `src/hooks/useMobileOptimized.ts` lines 248-369).
Data values are finite doubles, idealised as `ℝ`; the one operation in
this layer that can produce a non-finite double from finite operands is
division by zero, modelled explicitly by `jsDiv`. -/

/-- The `reduce((sum, val) => sum + val, 0)` accumulation of the source. -/
noncomputable def listSum (l : List ℝ) : ℝ :=
  l.foldl (fun acc v => acc + v) 0

/-- `[...data].sort((a, b) => a - b)`: ascending sort.  Any sorted
permutation of a list is the same list, so insertion sort models the
engine's comparison sort exactly. -/
noncomputable def sortAsc (data : List ℝ) : List ℝ :=
  List.insertionSort (fun a b => a ≤ b) data

/-- IEEE division of finite doubles: finite quotient for a nonzero
divisor, NaN for `0/0`, signed infinity otherwise.  (The zero divisors
reachable in this development all arise as `√variance`, `n-1` or
`(max-min)/bins`, never as a negative zero.) -/
noncomputable def jsDiv (a b : ℝ) : JsNum ℝ :=
  if b = 0 then
    (if a = 0 then JsNum.nan else JsNum.inf (a < 0))
  else JsNum.num (a / b)

/-- `Math.sqrt` on a JS number: NaN for NaN and negative arguments. -/
noncomputable def jsSqrt : JsNum ℝ → JsNum ℝ
  | JsNum.nan => JsNum.nan
  | JsNum.inf neg => if neg then JsNum.nan else JsNum.inf false
  | JsNum.num x => if x < 0 then JsNum.nan else JsNum.num (Real.sqrt x)

/-- `Math.abs` on a JS number. -/
noncomputable def jsAbs : JsNum ℝ → JsNum ℝ
  | JsNum.nan => JsNum.nan
  | JsNum.inf _ => JsNum.inf false
  | JsNum.num x => JsNum.num |x|

/-- The JS comparison `a <= t` for a finite `t`: false when `a` is NaN
(every comparison with NaN is false) or positive infinity. -/
noncomputable def jsLeNum (a : JsNum ℝ) (t : ℝ) : Bool :=
  match a with
  | JsNum.nan => false
  | JsNum.inf neg => neg
  | JsNum.num x => decide (x ≤ t)

inductive StatType where
  | population
  | sample
  deriving DecidableEq, Repr

/-- `StatisticsOptions`; `type` is optional, absent means population. -/
structure StatisticsOptions where
  type : Option StatType
  deriving DecidableEq, Repr

/-- `calculateMean` (lines 248-255). -/
noncomputable def calculateMean (data : List ℝ) : Except String ℝ :=
  if data.length = 0 then
    Except.error "Cannot calculate mean of empty dataset"
  else
    Except.ok (listSum data / (data.length : ℝ))

/-- `calculateMedian` (lines 257-270): sort ascending, take the middle
element (odd length) or the mean of the two middle elements (even). -/
noncomputable def calculateMedian (data : List ℝ) : Except String ℝ :=
  if data.length = 0 then
    Except.error "Cannot calculate median of empty dataset"
  else
    let sorted := sortAsc data
    let mid := sorted.length / 2
    if sorted.length % 2 = 0 then
      Except.ok ((sorted.getD (mid - 1) 0 + sorted.getD mid 0) / 2)
    else
      Except.ok (sorted.getD mid 0)

/-- `calculateVariance` (lines 272-283).  The divisor is `n-1` for
sample variance and `n` otherwise; the division is the unguarded JS
division, so a singleton with sample type yields `0/0 = NaN`. -/
noncomputable def calculateVariance (data : List ℝ)
    (options : StatisticsOptions) : Except String (JsNum ℝ) :=
  if data.length = 0 then
    Except.error "Cannot calculate variance of empty dataset"
  else
    match calculateMean data with
    | Except.error e => Except.error e
    | Except.ok mean =>
      let squaredDifferences := data.map (fun v => (v - mean) ^ 2)
      let sum := listSum squaredDifferences
      let divisor : ℝ :=
        if options.type = some StatType.sample then (data.length : ℝ) - 1
        else (data.length : ℝ)
      Except.ok (jsDiv sum divisor)

/-- `calculateStandardDeviation` (lines 285-296): 0 for a single value
(short-circuit before any division), otherwise `Math.sqrt` of the
variance. -/
noncomputable def calculateStandardDeviation (data : List ℝ)
    (options : StatisticsOptions) : Except String (JsNum ℝ) :=
  if data.length = 0 then
    Except.error "Cannot calculate standard deviation of empty dataset"
  else if data.length = 1 then
    Except.ok (JsNum.num 0)
  else
    match calculateVariance data options with
    | Except.error e => Except.error e
    | Except.ok v => Except.ok (jsSqrt v)

structure Quartiles where
  q1 : ℝ
  q2 : ℝ
  q3 : ℝ

/-- The `interpolate` closure of `calculateQuartiles` (lines 326-336):
linear interpolation at a 1-indexed real position over the sorted data,
clamped to the first/last element when the bracketing indices fall
outside the list.  In the source, `lower = Math.floor(index) - 1`,
`upper = Math.ceil(index) - 1` and `fraction = index - Math.floor(index)`
(0-indexed brackets of the 1-indexed position); they are inlined here. -/
noncomputable def interpolate (sorted : List ℝ) (index : ℝ) : ℝ :=
  if ⌊index⌋ - 1 < 0 then sorted.getD 0 0
  else if (sorted.length : ℤ) ≤ ⌈index⌉ - 1 then sorted.getD (sorted.length - 1) 0
  else if ⌊index⌋ - 1 = ⌈index⌉ - 1 then sorted.getD (⌊index⌋ - 1).toNat 0
  else
    sorted.getD (⌊index⌋ - 1).toNat 0 +
      (index - (⌊index⌋ : ℝ)) *
        (sorted.getD (⌈index⌉ - 1).toNat 0 - sorted.getD (⌊index⌋ - 1).toNat 0)

/-- `calculateQuartiles` (lines 313-343): Type-6 interpolation at the
1-indexed positions `(n+1)/4`, `(n+1)/2` and `3(n+1)/4`. -/
noncomputable def calculateQuartiles (data : List ℝ) :
    Except String Quartiles :=
  if data.length = 0 then
    Except.error "Cannot calculate quartiles of empty dataset"
  else
    let sorted := sortAsc data
    let n := sorted.length
    Except.ok (Quartiles.mk
      (interpolate sorted (((n : ℝ) + 1) / 4))
      (interpolate sorted (((n : ℝ) + 1) / 2))
      (interpolate sorted (3 * ((n : ℝ) + 1) / 4)))

/-! ## Dataset cleaner (`src/utils/validation.ts` lines 59-118) -/

/-- JS `isNaN` restricted to the finite-real data model: identically
false (NaN is not a value of `ℝ`). -/
def realIsNaN (_ : ℝ) : Bool := false

/-- JS `isFinite` restricted to the finite-real data model: identically
true. -/
def realIsFinite (_ : ℝ) : Bool := true

inductive OutlierMethod where
  | iqr
  | zscore
  deriving DecidableEq, Repr

structure DataCleaningOptions where
  removeNaN : Bool
  removeInfinite : Bool
  removeOutliers : Bool
  outlierMethod : OutlierMethod
  zscoreThreshold : ℝ

/-- The destructuring defaults of `cleanDataset` (lines 60-66). -/
def defaultCleaningOptions : DataCleaningOptions :=
  DataCleaningOptions.mk true true false OutlierMethod.iqr 3

/-- `removeOutliersIQR` (lines 92-107): index-based quartiles
`sorted[floor(n*0.25)]` and `sorted[floor(n*0.75)]`, 1.5-IQR fences,
inclusive filtering of the original (unsorted) data. -/
noncomputable def removeOutliersIQR (data : List ℝ) : List ℝ :=
  let sorted := sortAsc data
  let n := sorted.length
  let q1 := sorted.getD ⌊(n : ℝ) * 0.25⌋₊ 0
  let q3 := sorted.getD ⌊(n : ℝ) * 0.75⌋₊ 0
  let iqr := q3 - q1
  let lowerBound := q1 - 1.5 * iqr
  let upperBound := q3 + 1.5 * iqr
  data.filter (fun v => decide (lowerBound ≤ v) && decide (v ≤ upperBound))

/-- `removeOutliersZScore` (lines 109-118): population mean and standard
deviation, then keep values with `|value - mean| / stdDev <= threshold`.
The division is the JS division: when `stdDev = 0` the z-score is
`|0/0| = NaN` and the comparison with the threshold is false. -/
noncomputable def removeOutliersZScore (data : List ℝ) (threshold : ℝ) :
    List ℝ :=
  let mean := listSum data / (data.length : ℝ)
  let variance := listSum (data.map (fun v => (v - mean) ^ 2)) / (data.length : ℝ)
  let stdDev := Real.sqrt variance
  data.filter (fun v => jsLeNum (jsAbs (jsDiv (v - mean) stdDev)) threshold)

/-- `cleanDataset` (lines 59-90): drop NaN, drop non-finite, then
optionally remove outliers from the already-filtered sequence when it is
non-empty. -/
noncomputable def cleanDataset (data : List ℝ)
    (options : DataCleaningOptions) : List ℝ :=
  let c1 := if options.removeNaN then data.filter (fun v => !(realIsNaN v)) else data
  let c2 := if options.removeInfinite then c1.filter (fun v => realIsFinite v) else c1
  if options.removeOutliers ∧ 0 < c2.length then
    match options.outlierMethod with
    | OutlierMethod.iqr => removeOutliersIQR c2
    | OutlierMethod.zscore => removeOutliersZScore c2 options.zscoreThreshold
  else c2

/-! ## Histogram binning (`src/components/Histogram.tsx` lines 48-70) -/

/-- `Math.min(...data)` for the data of a rendered chart; both callers
(`Histogram`, `calculateKDE`) return early on empty data, so the empty
case is never reached (JS would give `Infinity`). -/
noncomputable def listMin : List ℝ → ℝ
  | [] => 0
  | x :: xs => xs.foldl (fun a b => min a b) x

/-- `Math.max(...data)`, same conventions as `listMin`. -/
noncomputable def listMax : List ℝ → ℝ
  | [] => 0
  | x :: xs => xs.foldl (fun a b => max a b) x

/-- `Math.floor` of a JS number, viewed as a candidate array index:
only a finite value floors to an integer index; `Math.floor` of NaN or
`±Infinity` is NaN or `±Infinity`, and subscripting an array with those
creates a non-element property, leaving every bin count unchanged. -/
noncomputable def jsFloorIdx : JsNum ℝ → Option ℤ
  | JsNum.num x => some ⌊x⌋
  | _ => none

/-- The bin-counting loop of `Histogram` (lines 57, 66-70): start from
`new Array(bins).fill(0)`; for each value take
`Math.floor((value - min) / binWidth)`, replace an index equal to
`bins` by `bins - 1`, and increment that cell.  A NaN/infinite or
out-of-range subscript mutates a non-element property of the JS array,
which leaves the `bins` counts unchanged.  (The bin labels built on
lines 60-64 are display strings and do not influence the counts.) -/
noncomputable def histogramCounts (data : List ℝ) (bins : ℕ) : List ℕ :=
  let mn := listMin data
  let mx := listMax data
  let binWidth := (mx - mn) / (bins : ℝ)
  data.foldl (fun counts v =>
    match jsFloorIdx (jsDiv (v - mn) binWidth) with
    | none => counts
    | some i =>
      let j : ℤ := if i = (bins : ℤ) then (bins : ℤ) - 1 else i
      if 0 ≤ j ∧ j.toNat < bins then
        counts.set j.toNat (counts.getD j.toNat 0 + 1)
      else counts)
    (List.replicate bins 0)

/-! ## KDE engine (`calculateKDE` utility, `src/unnamed/part_006`) -/

inductive KernelType where
  | gaussian
  | epanechnikov
  | triangular
  deriving DecidableEq, Repr

/-- `kernelFunction` (part_006 lines 40-54).  The `default` arm of the
source's switch re-dispatches to the gaussian kernel and is unreachable
for the closed kernel type. -/
noncomputable def kernelFunction (u : ℝ) (kernel : KernelType) : ℝ :=
  match kernel with
  | KernelType.gaussian =>
    (1 / Real.sqrt (2 * Real.pi)) * Real.exp (-0.5 * u * u)
  | KernelType.epanechnikov => if |u| ≤ 1 then (3 / 4) * (1 - u * u) else 0
  | KernelType.triangular => if |u| ≤ 1 then 1 - |u| else 0

/-- `calculateKDE` (part_006 lines 3-38): empty result for empty data;
otherwise `points` grid values `xMin + (i/(points-1))*(xMax-xMin)` over
the 10%-padded data range, and at each grid value the kernel sum divided
by `n * bandwidth`.  (For `points = 1` the JS grid formula evaluates
`0/0`; every caller requests at least 2 points, and the claims assume
`2 ≤ points`, so the real-division idealisation is not exercised
there.) -/
noncomputable def calculateKDE (data : List ℝ) (bandwidth : ℝ)
    (points : ℕ) (kernel : KernelType) : List ℝ × List ℝ :=
  if data.length = 0 then ([], [])
  else
    let mn := listMin data
    let mx := listMax data
    let range := mx - mn
    let padding := range * 0.1
    let xMin := mn - padding
    let xMax := mx + padding
    let x := (List.range points).map
      (fun (i : ℕ) => xMin + ((i : ℝ) / ((points : ℝ) - 1)) * (xMax - xMin))
    let y := x.map (fun xi =>
      (data.foldl
        (fun density dataPoint =>
          density + kernelFunction ((xi - dataPoint) / bandwidth) kernel) 0) /
        ((data.length : ℝ) * bandwidth))
    (x, y)

/-! ## Helper lemmas -/

theorem listSum_nil : listSum [] = 0 := rfl

theorem foldl_add_eq (l : List ℝ) (a : ℝ) :
    l.foldl (fun acc v => acc + v) a = a + listSum l := by
  induction l generalizing a with
  | nil => simp [listSum]
  | cons x xs ih =>
    have h1 : (x :: xs).foldl (fun acc v => acc + v) a
        = xs.foldl (fun acc v => acc + v) (a + x) := rfl
    have h2 : listSum (x :: xs) = xs.foldl (fun acc v => acc + v) (0 + x) := rfl
    rw [h1, ih, h2, ih]
    ring

theorem listSum_cons (x : ℝ) (xs : List ℝ) :
    listSum (x :: xs) = x + listSum xs := by
  have h : listSum (x :: xs) = xs.foldl (fun acc v => acc + v) (0 + x) := rfl
  rw [h, foldl_add_eq]
  ring

/-! ## Claims C9, C10: singleton standard deviation and sample variance -/

/-- Claim C9: for every single value `x` and every options value (both
`population` and `sample` included), `calculateStandardDeviation [x]`
returns exactly 0 via the `n == 1` short-circuit, never reaching the
sample-variance division; the empty sequence fails with the
empty-dataset error. -/
theorem c9_singleton_stddev_zero (x : ℝ) (options : StatisticsOptions) :
    calculateStandardDeviation [x] options = Except.ok (JsNum.num 0) ∧
    calculateStandardDeviation [] options =
      Except.error "Cannot calculate standard deviation of empty dataset" :=
  ⟨rfl, rfl⟩

/-- Claim C9 witness at a concrete input. -/
theorem c9_singleton_stddev_zero_witness :
    calculateStandardDeviation [(7 : ℝ)] (StatisticsOptions.mk (some StatType.sample)) =
      Except.ok (JsNum.num 0) :=
  (c9_singleton_stddev_zero 7 (StatisticsOptions.mk (some StatType.sample))).1

/-- Claim C10: `calculateVariance [x]` with sample type does not throw
and does not return 0: the unguarded division `0/(n-1)` with `n = 1`
yields NaN, even though `calculateStandardDeviation [x]` with sample
type returns 0. -/
theorem c10_singleton_sample_variance_nan (x : ℝ) :
    calculateVariance [x] (StatisticsOptions.mk (some StatType.sample)) =
      Except.ok JsNum.nan ∧
    (Except.ok JsNum.nan : Except String (JsNum ℝ)) ≠ Except.ok (JsNum.num 0) ∧
    calculateStandardDeviation [x] (StatisticsOptions.mk (some StatType.sample)) =
      Except.ok (JsNum.num 0) := by
  refine ⟨?_, by simp, rfl⟩
  have hv : calculateVariance [x] (StatisticsOptions.mk (some StatType.sample))
      = Except.ok (jsDiv
          (listSum ([x].map (fun v => (v - listSum [x] / ((1 : ℕ) : ℝ)) ^ 2)))
          (((1 : ℕ) : ℝ) - 1)) := rfl
  have hsum : listSum ([x].map (fun v => (v - listSum [x] / ((1 : ℕ) : ℝ)) ^ 2)) = 0 := by
    simp only [List.map_cons, List.map_nil, listSum_cons, listSum_nil]
    norm_num
  rw [hv, hsum]
  norm_num [jsDiv]

/-! ## Claims C2, C3: degenerate identical-valued data -/

/-- The z-score comparison against a zero standard deviation is false
for every value: `0/0` is NaN (and `x/0` with `x ≠ 0` is an infinity
whose absolute value is `+∞`), and neither satisfies `<= threshold`. -/
theorem jsLe_abs_div_zero (a t : ℝ) :
    jsLeNum (jsAbs (jsDiv a 0)) t = false := by
  by_cases h : a = 0
  · simp [jsDiv, h, jsAbs, jsLeNum]
  · simp [jsDiv, h, jsAbs, jsLeNum]

/-- Claim C2 (refuting evaluation): on the all-identical dataset
`[3, 3, 3]`, `cleanDataset` with `removeOutliers: true` and
`outlierMethod: "zscore"` removes EVERY value instead of keeping them:
the population standard deviation is 0, each z-score is `|0/0| = NaN`,
and the JS comparison `NaN <= threshold` is false, so the filter drops
all elements. -/
theorem c2_zscore_zero_stddev_removes_all :
    cleanDataset [3, 3, 3]
        (DataCleaningOptions.mk true true true OutlierMethod.zscore 3) = [] ∧
    ([] : List ℝ) ≠ [3, 3, 3] := by
  refine ⟨?_, by simp⟩
  have h1 : cleanDataset [3, 3, 3]
      (DataCleaningOptions.mk true true true OutlierMethod.zscore 3)
      = removeOutliersZScore [3, 3, 3] 3 := by
    simp [cleanDataset, realIsNaN, realIsFinite]
  rw [h1]
  simp only [removeOutliersZScore]
  rw [List.filter_eq_nil_iff]
  intro a ha
  have hvar : listSum ([(3 : ℝ), 3, 3].map
      (fun v => (v - listSum [(3 : ℝ), 3, 3] / (([(3 : ℝ), 3, 3].length : ℕ) : ℝ)) ^ 2)) /
        (([(3 : ℝ), 3, 3].length : ℕ) : ℝ) = 0 := by
    simp only [List.map_cons, List.map_nil, listSum_cons, listSum_nil,
      List.length_cons, List.length_nil]
    norm_num
  rw [hvar, Real.sqrt_zero, jsLe_abs_div_zero]
  simp

/-- Claim C3 (refuting evaluation): for the all-identical dataset
`[5, 5]` with 3 bins, `binWidth = 0` and every bin index is
`Math.floor(0/0) = NaN`; `binCounts[NaN]++` mutates a non-element
property, so the returned counts are all zero — the data is NOT counted
in bin 0. -/
theorem c3_degenerate_histogram_counts_zero :
    histogramCounts [5, 5] 3 = [0, 0, 0] ∧ ([0, 0, 0] : List ℕ) ≠ [2, 0, 0] := by
  refine ⟨?_, by simp⟩
  have hmn : listMin [(5 : ℝ), 5] = 5 := by simp [listMin]
  have hmx : listMax [(5 : ℝ), 5] = 5 := by simp [listMax]
  simp only [histogramCounts, hmn, hmx]
  norm_num [jsDiv, jsFloorIdx, List.replicate, List.foldl_cons, List.foldl_nil]

/-! ## Claim C1: full-width delimiters -/

/-- Claim C1 (refuting evaluation): the source's delimiter class
`[,;\s\n\t]+` contains only the ASCII comma and semicolon, so the
full-width input `"1，2，3，4，5"` survives tokenization as a single
token; `parseFloat` consumes its numeric prefix `1` (full-width commas
are not NaN-producing), hence validation reports valid but parsing
returns `[1]`, while the ASCII input parses to `[1,2,3,4,5]` — the two
results differ. -/
theorem c1_fullwidth_commas_not_delimiters :
    (validateNumericInput "1，2，3，4，5").isValid = true ∧
    parseNumericInput "1，2，3，4，5" = Except.ok [JsNum.num 1] ∧
    parseNumericInput "1,2,3,4,5" =
      Except.ok [JsNum.num 1, JsNum.num 2, JsNum.num 3, JsNum.num 4, JsNum.num 5] ∧
    (Except.ok [JsNum.num 1] : Except String (List (JsNum ℚ))) ≠
      Except.ok [JsNum.num 1, JsNum.num 2, JsNum.num 3, JsNum.num 4, JsNum.num 5] := by
  refine ⟨by decide, ?_, ?_, by simp⟩
  · have hskel : parseNumericInput "1，2，3，4，5"
        = Except.ok ((tokenize "1，2，3，4，5").map jsParseFloat) := rfl
    rw [hskel, show tokenize "1，2，3，4，5" = ["1，2，3，4，5"] from by decide]
    have hp : jsParseFloat "1，2，3，4，5"
        = JsNum.num (((1 : ℕ) : ℚ) * (10 : ℚ) ^ (0 : ℤ)) := rfl
    simp [hp]
  · have hskel : parseNumericInput "1,2,3,4,5"
        = Except.ok ((tokenize "1,2,3,4,5").map jsParseFloat) := rfl
    rw [hskel, show tokenize "1,2,3,4,5" = ["1", "2", "3", "4", "5"] from by decide]
    have h1 : jsParseFloat "1" = JsNum.num (((1 : ℕ) : ℚ) * (10 : ℚ) ^ (0 : ℤ)) := rfl
    have h2 : jsParseFloat "2" = JsNum.num (((2 : ℕ) : ℚ) * (10 : ℚ) ^ (0 : ℤ)) := rfl
    have h3 : jsParseFloat "3" = JsNum.num (((3 : ℕ) : ℚ) * (10 : ℚ) ^ (0 : ℤ)) := rfl
    have h4 : jsParseFloat "4" = JsNum.num (((4 : ℕ) : ℚ) * (10 : ℚ) ^ (0 : ℤ)) := rfl
    have h5 : jsParseFloat "5" = JsNum.num (((5 : ℕ) : ℚ) * (10 : ℚ) ^ (0 : ℤ)) := rfl
    simp [h1, h2, h3, h4, h5]

/-! ## Claims C7, C8: validator and parser contracts -/

/-- The error-collecting loop produces exactly the NaN-parsing tokens,
in input order, each prefixed with `"Invalid number: "`. -/
theorem collectTokenErrors_eq (l : List String) :
    collectTokenErrors l =
      (l.filter (fun t => (jsParseFloat t).isNaN)).map
        (fun t => "Invalid number: " ++ t) := by
  induction l with
  | nil => rfl
  | cons v vs ih =>
    by_cases h : (jsParseFloat v).isNaN
    · simp [collectTokenErrors, h, ih]
    · simp [collectTokenErrors, h, ih]

/-- Claim C7 (counterexample): the surviving token `"Infinity"` does not
parse as a finite decimal number in the spec's grammar, yet
`validateNumericInput` collects no error for it and reports the input
valid (the code's test is `isNaN(parseFloat(token))`, and
`parseFloat("Infinity")` is `Infinity`, not NaN). -/
theorem c7_counterexample_infinity_token :
    tokenize "Infinity" = ["Infinity"] ∧
    isFiniteDecimalToken "Infinity" = false ∧
    (validateNumericInput "Infinity").isValid = true ∧
    (validateNumericInput "Infinity").errors = [] := by decide

/-- Claim C7 (amended): for every input string, `validateNumericInput`
returns (never throws); empty or whitespace-only input yields exactly
the single error `"Input cannot be empty"`; otherwise the errors are
`"Invalid number: <token>"` for exactly those surviving tokens on which
`parseFloat` yields NaN (no parsable numeric prefix), in input order;
and `isValid` is true iff zero errors were collected. -/
theorem c7_validation_errors_characterised (s : String) :
    (jsTrim s = "" →
      validateNumericInput s =
        ValidationResult.mk false ["Input cannot be empty"] none) ∧
    (jsTrim s ≠ "" →
      (validateNumericInput s).errors =
        ((tokenize s).filter (fun t => (jsParseFloat t).isNaN)).map
          (fun t => "Invalid number: " ++ t)) ∧
    ((validateNumericInput s).isValid = true ↔
      (validateNumericInput s).errors = []) := by
  refine ⟨fun h => by simp [validateNumericInput, h], fun h => ?_, ?_⟩
  · simp [validateNumericInput, h, collectTokenErrors_eq]
  · by_cases h : jsTrim s = ""
    · simp [validateNumericInput, h]
    · simp [validateNumericInput, h, List.isEmpty_iff]

/-- Claim C7 witness at a concrete invalid input. -/
theorem c7_validation_errors_characterised_witness :
    (validateNumericInput "1,abc,3").errors = ["Invalid number: abc"] := by
  have h := (c7_validation_errors_characterised "1,abc,3").2.1 (by decide)
  rw [h]; decide

/-- Claim C8: `parseNumericInput` throws (with the joined validation
error messages) if and only if `validateNumericInput` reports invalid;
when validation succeeds it returns the parsed values of the surviving
tokens in input order. -/
theorem c8_parse_throws_iff_invalid (s : String) :
    ((validateNumericInput s).isValid = true →
      parseNumericInput s = Except.ok ((tokenize s).map jsParseFloat)) ∧
    ((validateNumericInput s).isValid = false →
      parseNumericInput s = Except.error
        ("Invalid input: " ++
          String.intercalate ", " (validateNumericInput s).errors)) ∧
    (∀ e, parseNumericInput s = Except.error e →
      (validateNumericInput s).isValid = false) := by
  refine ⟨fun h => by simp [parseNumericInput, h], fun h => by simp [parseNumericInput, h], ?_⟩
  intro e he
  cases hv : (validateNumericInput s).isValid
  · rfl
  · rw [show parseNumericInput s = Except.ok ((tokenize s).map jsParseFloat) from by
      simp [parseNumericInput, hv]] at he
    exact absurd he (by simp)

/-- Claim C8 witness at a concrete invalid input. -/
theorem c8_parse_throws_iff_invalid_witness :
    parseNumericInput "abc" = Except.error "Invalid input: Invalid number: abc" := by
  have h := (c8_parse_throws_iff_invalid "abc").2.1 (by decide)
  rw [h]; rfl

/-! ## Claim C4: KDE contract -/

theorem foldl_min_le_init (l : List ℝ) (a : ℝ) :
    l.foldl (fun x y => min x y) a ≤ a := by
  induction l generalizing a with
  | nil => simp
  | cons c cs ih =>
    have h1 : (c :: cs).foldl (fun x y => min x y) a
        = cs.foldl (fun x y => min x y) (min a c) := rfl
    rw [h1]
    exact le_trans (ih (min a c)) (min_le_left a c)

theorem init_le_foldl_max (l : List ℝ) (a : ℝ) :
    a ≤ l.foldl (fun x y => max x y) a := by
  induction l generalizing a with
  | nil => simp
  | cons c cs ih =>
    have h1 : (c :: cs).foldl (fun x y => max x y) a
        = cs.foldl (fun x y => max x y) (max a c) := rfl
    rw [h1]
    exact le_trans (le_max_left a c) (ih (max a c))

theorem listMin_le_listMax (l : List ℝ) : listMin l ≤ listMax l := by
  cases l with
  | nil => simp [listMin, listMax]
  | cons x xs => exact le_trans (foldl_min_le_init xs x) (init_le_foldl_max xs x)

theorem kernelFunction_nonneg (u : ℝ) (k : KernelType) :
    0 ≤ kernelFunction u k := by
  cases k with
  | gaussian =>
    show 0 ≤ (1 / Real.sqrt (2 * Real.pi)) * Real.exp (-0.5 * u * u)
    positivity
  | epanechnikov =>
    show 0 ≤ if |u| ≤ 1 then (3 / 4) * (1 - u * u) else 0
    by_cases h : |u| ≤ 1
    · rw [if_pos h]
      have h2 := abs_le.mp h
      nlinarith [h2.1, h2.2]
    · rw [if_neg h]
  | triangular =>
    show 0 ≤ if |u| ≤ 1 then 1 - |u| else 0
    by_cases h : |u| ≤ 1
    · rw [if_pos h]; linarith
    · rw [if_neg h]

theorem listSum_nonneg (l : List ℝ) (h : ∀ x ∈ l, 0 ≤ x) : 0 ≤ listSum l := by
  induction l with
  | nil => simp [listSum]
  | cons x xs ih =>
    rw [listSum_cons]
    have hx := h x (List.mem_cons_self x xs)
    have hxs := ih (fun y hy => h y (List.mem_cons_of_mem x hy))
    linarith

theorem foldl_add_map (f : ℝ → ℝ) (l : List ℝ) (a : ℝ) :
    l.foldl (fun acc v => acc + f v) a = a + listSum (l.map f) := by
  induction l generalizing a with
  | nil => simp [listSum]
  | cons x xs ih =>
    have h1 : (x :: xs).foldl (fun acc v => acc + f v) a
        = xs.foldl (fun acc v => acc + f v) (a + f x) := rfl
    rw [h1, ih]
    simp only [List.map_cons, listSum_cons]
    ring

theorem getD_range_map (f : ℕ → ℝ) (p i : ℕ) (h : i < p) :
    ((List.range p).map f).getD i 0 = f i := by
  rw [List.getD_eq_getElem _ _ (by simpa using h)]
  simp

theorem getD_map_of_lt (g : ℝ → ℝ) (l : List ℝ) (i : ℕ) (h : i < l.length) :
    (l.map g).getD i 0 = g (l.getD i 0) := by
  rw [List.getD_eq_getElem _ _ (by simpa using h), List.getD_eq_getElem _ _ h]
  simp

/-- Claim C4: `calculateKDE` returns empty `x`/`y` for empty data; for
non-empty data, positive bandwidth and at least 2 points it returns a
grid `x` of length `points`, equally spaced and ascending from
`min - 0.1*range` to `max + 0.1*range`, and `y` of length `points` with
`y[i] = (1/(n*h)) * Σ K((x[i] - data[j])/h)`, every `y[i] ≥ 0`. -/
theorem c4_kde_contract (data : List ℝ) (bandwidth : ℝ) (points : ℕ)
    (kernel : KernelType) (hd : data ≠ []) (hb : 0 < bandwidth)
    (hp : 2 ≤ points) :
    calculateKDE [] bandwidth points kernel = ([], []) ∧
    (calculateKDE data bandwidth points kernel).1.length = points ∧
    (calculateKDE data bandwidth points kernel).2.length = points ∧
    (calculateKDE data bandwidth points kernel).1.getD 0 0 =
      listMin data - 0.1 * (listMax data - listMin data) ∧
    (calculateKDE data bandwidth points kernel).1.getD (points - 1) 0 =
      listMax data + 0.1 * (listMax data - listMin data) ∧
    (∀ i, i + 1 < points →
      (calculateKDE data bandwidth points kernel).1.getD (i + 1) 0 -
          (calculateKDE data bandwidth points kernel).1.getD i 0 =
        ((listMax data + 0.1 * (listMax data - listMin data)) -
            (listMin data - 0.1 * (listMax data - listMin data))) /
          ((points : ℝ) - 1)) ∧
    (∀ i, i + 1 < points →
      (calculateKDE data bandwidth points kernel).1.getD i 0 ≤
        (calculateKDE data bandwidth points kernel).1.getD (i + 1) 0) ∧
    (∀ i, i < points →
      (calculateKDE data bandwidth points kernel).2.getD i 0 =
        (1 / ((data.length : ℝ) * bandwidth)) *
          listSum (data.map (fun d =>
            kernelFunction
              (((calculateKDE data bandwidth points kernel).1.getD i 0 - d) /
                bandwidth) kernel))) ∧
    (∀ i, i < points →
      0 ≤ (calculateKDE data bandwidth points kernel).2.getD i 0) := by
  have hne : ¬(data.length = 0) := by
    simpa [List.length_eq_zero] using hd
  have hppos : 0 < points := lt_of_lt_of_le (by norm_num) hp
  have hpcast : (2 : ℝ) ≤ (points : ℝ) := by exact_mod_cast hp
  have hpne : ((points : ℝ) - 1) ≠ 0 := by linarith
  have hrange : 0 ≤ listMax data - listMin data :=
    sub_nonneg.mpr (listMin_le_listMax data)
  have hnpos : (0 : ℝ) < (data.length : ℝ) := by
    exact_mod_cast Nat.pos_of_ne_zero hne
  have hx : (calculateKDE data bandwidth points kernel).1 =
      (List.range points).map (fun (i : ℕ) =>
        (listMin data - (listMax data - listMin data) * 0.1) +
          ((i : ℝ) / ((points : ℝ) - 1)) *
            ((listMax data + (listMax data - listMin data) * 0.1) -
              (listMin data - (listMax data - listMin data) * 0.1))) := by
    simp only [calculateKDE, if_neg hne]
  have hy : (calculateKDE data bandwidth points kernel).2 =
      ((List.range points).map (fun (i : ℕ) =>
        (listMin data - (listMax data - listMin data) * 0.1) +
          ((i : ℝ) / ((points : ℝ) - 1)) *
            ((listMax data + (listMax data - listMin data) * 0.1) -
              (listMin data - (listMax data - listMin data) * 0.1)))).map
        (fun xi =>
          (data.foldl
            (fun density dataPoint =>
              density + kernelFunction ((xi - dataPoint) / bandwidth) kernel)
            0) / ((data.length : ℝ) * bandwidth)) := by
    simp only [calculateKDE, if_neg hne]
  refine ⟨rfl, ?_, ?_, ?_, ?_, ?_, ?_, ?_, ?_⟩
  · rw [hx]; simp
  · rw [hy]; simp
  · rw [hx, getD_range_map _ _ _ hppos]
    push_cast
    ring
  · rw [hx, getD_range_map _ _ _ (Nat.sub_lt hppos (by norm_num))]
    have hc : (((points - 1 : ℕ)) : ℝ) = (points : ℝ) - 1 := by
      have h1 : (1 : ℕ) ≤ points := le_trans (by norm_num) hp
      push_cast [h1]
      ring
    rw [hc, div_self hpne]
    ring
  · intro i hi
    rw [hx, getD_range_map _ _ _ hi, getD_range_map _ _ _ (by omega)]
    push_cast
    field_simp
    ring
  · intro i hi
    rw [hx, getD_range_map _ _ _ hi, getD_range_map _ _ _ (by omega)]
    have hstep : (0 : ℝ) ≤
        (((i : ℝ) + 1) / ((points : ℝ) - 1) - (i : ℝ) / ((points : ℝ) - 1)) *
          ((listMax data + (listMax data - listMin data) * 0.1) -
            (listMin data - (listMax data - listMin data) * 0.1)) := by
      have h1 : ((i : ℝ) + 1) / ((points : ℝ) - 1) - (i : ℝ) / ((points : ℝ) - 1)
          = 1 / ((points : ℝ) - 1) := by
        field_simp
      rw [h1]
      have h2 : (0 : ℝ) ≤ 1 / ((points : ℝ) - 1) := by
        apply div_nonneg zero_le_one
        linarith
      nlinarith [hrange]
    push_cast
    nlinarith [hstep]
  · intro i hi
    have hlen : i < ((List.range points).map (fun (i : ℕ) =>
        (listMin data - (listMax data - listMin data) * 0.1) +
          ((i : ℝ) / ((points : ℝ) - 1)) *
            ((listMax data + (listMax data - listMin data) * 0.1) -
              (listMin data - (listMax data - listMin data) * 0.1)))).length := by
      simpa using hi
    rw [hy, hx, getD_map_of_lt _ _ _ hlen, foldl_add_map, zero_add]
    ring
  · intro i hi
    have hlen : i < ((List.range points).map (fun (i : ℕ) =>
        (listMin data - (listMax data - listMin data) * 0.1) +
          ((i : ℝ) / ((points : ℝ) - 1)) *
            ((listMax data + (listMax data - listMin data) * 0.1) -
              (listMin data - (listMax data - listMin data) * 0.1)))).length := by
      simpa using hi
    rw [hy, getD_map_of_lt _ _ _ hlen, foldl_add_map, zero_add]
    apply div_nonneg
    · apply listSum_nonneg
      intro v hv
      obtain ⟨d, _, rfl⟩ := List.mem_map.mp hv
      exact kernelFunction_nonneg _ _
    · exact le_of_lt (mul_pos hnpos hb)

/-- Claim C4 witness at a concrete input. -/
theorem c4_kde_contract_witness :
    calculateKDE [] (1 / 2) 100 KernelType.gaussian = ([], []) ∧
    (calculateKDE [1, 2, 3] (1 / 2) 100 KernelType.gaussian).2.length = 100 ∧
    0 ≤ (calculateKDE [1, 2, 3] (1 / 2) 100 KernelType.gaussian).2.getD 0 0 := by
  have h := c4_kde_contract [1, 2, 3] (1 / 2) 100 KernelType.gaussian
    (by simp) (by norm_num) (by norm_num)
  exact ⟨h.1, h.2.2.1, h.2.2.2.2.2.2.2.2 0 (by norm_num)⟩

/-! ## Claims C5, C6: quartile interpolation -/

theorem sortAsc_length (data : List ℝ) :
    (sortAsc data).length = data.length :=
  (List.perm_insertionSort _ data).length_eq

theorem sortAsc_sorted (data : List ℝ) :
    List.Sorted (fun a b => a ≤ b) (sortAsc data) :=
  List.sorted_insertionSort _ data

theorem sorted_getD_le (s : List ℝ) (hs : List.Sorted (fun a b => a ≤ b) s)
    (i j : ℕ) (hij : i ≤ j) (hj : j < s.length) :
    s.getD i 0 ≤ s.getD j 0 := by
  have hi : i < s.length := lt_of_le_of_lt hij hj
  rw [List.getD_eq_get _ _ hi, List.getD_eq_get _ _ hj]
  exact hs.rel_get_of_le (by exact hij)

theorem interpolate_of_low (s : List ℝ) (i : ℝ) (h : ⌊i⌋ - 1 < 0) :
    interpolate s i = s.getD 0 0 := by
  unfold interpolate
  rw [if_pos h]

theorem interpolate_of_high (s : List ℝ) (i : ℝ) (h1 : ¬(⌊i⌋ - 1 < 0))
    (h2 : (s.length : ℤ) ≤ ⌈i⌉ - 1) :
    interpolate s i = s.getD (s.length - 1) 0 := by
  unfold interpolate
  rw [if_neg h1, if_pos h2]

theorem interpolate_of_eq (s : List ℝ) (i : ℝ) (h1 : ¬(⌊i⌋ - 1 < 0))
    (h2 : ¬((s.length : ℤ) ≤ ⌈i⌉ - 1)) (h3 : ⌊i⌋ - 1 = ⌈i⌉ - 1) :
    interpolate s i = s.getD (⌊i⌋ - 1).toNat 0 := by
  unfold interpolate
  rw [if_neg h1, if_neg h2, if_pos h3]

theorem interpolate_of_frac (s : List ℝ) (i : ℝ) (h1 : ¬(⌊i⌋ - 1 < 0))
    (h2 : ¬((s.length : ℤ) ≤ ⌈i⌉ - 1)) (h3 : ¬(⌊i⌋ - 1 = ⌈i⌉ - 1)) :
    interpolate s i = s.getD (⌊i⌋ - 1).toNat 0 +
      (i - (⌊i⌋ : ℝ)) *
        (s.getD (⌈i⌉ - 1).toNat 0 - s.getD (⌊i⌋ - 1).toNat 0) := by
  unfold interpolate
  rw [if_neg h1, if_neg h2, if_neg h3]

theorem interpolate_ge_head (s : List ℝ)
    (hs : List.Sorted (fun a b => a ≤ b) s) (hne : s ≠ []) (i : ℝ) :
    s.getD 0 0 ≤ interpolate s i := by
  have hn : 0 < s.length := List.length_pos.mpr hne
  by_cases h1 : ⌊i⌋ - 1 < 0
  · rw [interpolate_of_low s i h1]
  · by_cases h2 : (s.length : ℤ) ≤ ⌈i⌉ - 1
    · rw [interpolate_of_high s i h1 h2]
      exact sorted_getD_le s hs 0 (s.length - 1) (Nat.zero_le _) (by omega)
    · have hlu : ⌊i⌋ - 1 ≤ ⌈i⌉ - 1 := by
        have := Int.floor_le_ceil i
        omega
      have hup : ⌈i⌉ - 1 < (s.length : ℤ) := not_le.mp h2
      have hunat : (⌈i⌉ - 1).toNat < s.length := by omega
      by_cases h3 : ⌊i⌋ - 1 = ⌈i⌉ - 1
      · rw [interpolate_of_eq s i h1 h2 h3]
        exact sorted_getD_le s hs 0 _ (Nat.zero_le _) (by omega)
      · rw [interpolate_of_frac s i h1 h2 h3]
        have hfr : 0 ≤ i - (⌊i⌋ : ℝ) := sub_nonneg.mpr (Int.floor_le i)
        have hmono : s.getD (⌊i⌋ - 1).toNat 0 ≤ s.getD (⌈i⌉ - 1).toNat 0 :=
          sorted_getD_le s hs _ _ (by omega) hunat
        have h00 : s.getD 0 0 ≤ s.getD (⌊i⌋ - 1).toNat 0 :=
          sorted_getD_le s hs 0 _ (Nat.zero_le _) (by omega)
        nlinarith [hfr, hmono, h00]

theorem interpolate_le_last (s : List ℝ)
    (hs : List.Sorted (fun a b => a ≤ b) s) (hne : s ≠ []) (i : ℝ) :
    interpolate s i ≤ s.getD (s.length - 1) 0 := by
  have hn : 0 < s.length := List.length_pos.mpr hne
  by_cases h1 : ⌊i⌋ - 1 < 0
  · rw [interpolate_of_low s i h1]
    exact sorted_getD_le s hs 0 (s.length - 1) (Nat.zero_le _) (by omega)
  · by_cases h2 : (s.length : ℤ) ≤ ⌈i⌉ - 1
    · rw [interpolate_of_high s i h1 h2]
    · have hlu : ⌊i⌋ - 1 ≤ ⌈i⌉ - 1 := by
        have := Int.floor_le_ceil i
        omega
      have hup : ⌈i⌉ - 1 < (s.length : ℤ) := not_le.mp h2
      have hunat : (⌈i⌉ - 1).toNat < s.length := by omega
      by_cases h3 : ⌊i⌋ - 1 = ⌈i⌉ - 1
      · rw [interpolate_of_eq s i h1 h2 h3]
        exact sorted_getD_le s hs _ (s.length - 1) (by omega) (by omega)
      · rw [interpolate_of_frac s i h1 h2 h3]
        have hfr : i - (⌊i⌋ : ℝ) < 1 := by
          have := Int.lt_floor_add_one i
          linarith
        have hmono : s.getD (⌊i⌋ - 1).toNat 0 ≤ s.getD (⌈i⌉ - 1).toNat 0 :=
          sorted_getD_le s hs _ _ (by omega) hunat
        have hlast : s.getD (⌈i⌉ - 1).toNat 0 ≤ s.getD (s.length - 1) 0 :=
          sorted_getD_le s hs _ (s.length - 1) (by omega) (by omega)
        nlinarith [hfr, hmono, hlast]

theorem interpolate_le_get_ceil (s : List ℝ)
    (hs : List.Sorted (fun a b => a ≤ b) s) (i : ℝ)
    (h1 : ¬(⌊i⌋ - 1 < 0)) (h2 : ¬((s.length : ℤ) ≤ ⌈i⌉ - 1)) :
    interpolate s i ≤ s.getD (⌈i⌉ - 1).toNat 0 := by
  have hlu : ⌊i⌋ - 1 ≤ ⌈i⌉ - 1 := by
    have := Int.floor_le_ceil i
    omega
  have hup : ⌈i⌉ - 1 < (s.length : ℤ) := not_le.mp h2
  have hunat : (⌈i⌉ - 1).toNat < s.length := by omega
  by_cases h3 : ⌊i⌋ - 1 = ⌈i⌉ - 1
  · rw [interpolate_of_eq s i h1 h2 h3, h3]
  · rw [interpolate_of_frac s i h1 h2 h3]
    have hfr : i - (⌊i⌋ : ℝ) < 1 := by
      have := Int.lt_floor_add_one i
      linarith
    have hmono : s.getD (⌊i⌋ - 1).toNat 0 ≤ s.getD (⌈i⌉ - 1).toNat 0 :=
      sorted_getD_le s hs _ _ (by omega) hunat
    nlinarith [hfr, hmono]

theorem get_floor_le_interpolate (s : List ℝ)
    (hs : List.Sorted (fun a b => a ≤ b) s) (i : ℝ)
    (h1 : ¬(⌊i⌋ - 1 < 0)) (h2 : ¬((s.length : ℤ) ≤ ⌈i⌉ - 1)) :
    s.getD (⌊i⌋ - 1).toNat 0 ≤ interpolate s i := by
  have hlu : ⌊i⌋ - 1 ≤ ⌈i⌉ - 1 := by
    have := Int.floor_le_ceil i
    omega
  have hup : ⌈i⌉ - 1 < (s.length : ℤ) := not_le.mp h2
  have hunat : (⌈i⌉ - 1).toNat < s.length := by omega
  by_cases h3 : ⌊i⌋ - 1 = ⌈i⌉ - 1
  · rw [interpolate_of_eq s i h1 h2 h3]
  · rw [interpolate_of_frac s i h1 h2 h3]
    have hfr : 0 ≤ i - (⌊i⌋ : ℝ) := sub_nonneg.mpr (Int.floor_le i)
    have hmono : s.getD (⌊i⌋ - 1).toNat 0 ≤ s.getD (⌈i⌉ - 1).toNat 0 :=
      sorted_getD_le s hs _ _ (by omega) hunat
    nlinarith [hfr, hmono]

/-- Value of the quartile interpolation at the median position
`(n+1)/2`: the middle element for odd `n`, the mean of the two middle
elements for even `n` — exactly `calculateMedian`'s arithmetic. -/
theorem interpolate_mid (s : List ℝ) (hne : s ≠ []) :
    interpolate s (((s.length : ℝ) + 1) / 2) =
      if s.length % 2 = 0 then
        (s.getD (s.length / 2 - 1) 0 + s.getD (s.length / 2) 0) / 2
      else s.getD (s.length / 2) 0 := by
  have hn : 0 < s.length := List.length_pos.mpr hne
  obtain ⟨k, hk⟩ | ⟨k, hk⟩ := Nat.even_or_odd s.length
  · -- even length: s.length = k + k with 1 ≤ k
    have hk1 : 1 ≤ k := by omega
    have hi : ((s.length : ℝ) + 1) / 2 = (k : ℝ) + 1 / 2 := by
      rw [hk]
      push_cast
      ring
    have hfl : ⌊((s.length : ℝ) + 1) / 2⌋ = (k : ℤ) := by
      rw [hi]
      rw [Int.floor_eq_iff]
      constructor
      · push_cast; linarith
      · push_cast; linarith
    have hcl : ⌈((s.length : ℝ) + 1) / 2⌉ = (k : ℤ) + 1 := by
      rw [hi]
      rw [Int.ceil_eq_iff]
      constructor
      · push_cast; linarith
      · push_cast; linarith
    have h1 : ¬(⌊((s.length : ℝ) + 1) / 2⌋ - 1 < 0) := by
      rw [hfl]; omega
    have h2 : ¬((s.length : ℤ) ≤ ⌈((s.length : ℝ) + 1) / 2⌉ - 1) := by
      rw [hcl]; omega
    have h3 : ¬(⌊((s.length : ℝ) + 1) / 2⌋ - 1 = ⌈((s.length : ℝ) + 1) / 2⌉ - 1) := by
      rw [hfl, hcl]; omega
    rw [interpolate_of_frac s _ h1 h2 h3, hfl, hcl]
    have ht1 : ((k : ℤ) - 1).toNat = s.length / 2 - 1 := by omega
    have ht2 : ((k : ℤ) + 1 - 1).toNat = s.length / 2 := by omega
    have hpar : s.length % 2 = 0 := by omega
    rw [ht1, ht2, if_pos hpar, hi]
    push_cast
    ring
  · -- odd length: s.length = 2*k + 1
    have hi : ((s.length : ℝ) + 1) / 2 = ((k : ℕ) : ℝ) + 1 := by
      rw [hk]
      push_cast
      ring
    have hfl : ⌊((s.length : ℝ) + 1) / 2⌋ = (k : ℤ) + 1 := by
      rw [hi]
      rw [Int.floor_eq_iff]
      constructor
      · push_cast; linarith
      · push_cast; linarith
    have hcl : ⌈((s.length : ℝ) + 1) / 2⌉ = (k : ℤ) + 1 := by
      rw [hi]
      rw [Int.ceil_eq_iff]
      constructor
      · push_cast; linarith
      · push_cast; linarith
    have h1 : ¬(⌊((s.length : ℝ) + 1) / 2⌋ - 1 < 0) := by
      rw [hfl]; omega
    have h2 : ¬((s.length : ℤ) ≤ ⌈((s.length : ℝ) + 1) / 2⌉ - 1) := by
      rw [hcl]; omega
    have h3 : ⌊((s.length : ℝ) + 1) / 2⌋ - 1 = ⌈((s.length : ℝ) + 1) / 2⌉ - 1 := by
      rw [hfl, hcl]
    rw [interpolate_of_eq s _ h1 h2 h3, hfl]
    have ht : ((k : ℤ) + 1 - 1).toNat = s.length / 2 := by omega
    have hpar : ¬(s.length % 2 = 0) := by omega
    rw [ht, if_neg hpar]

/-- Claim C5: for every non-empty sequence, `calculateMedian` coincides
with the `q2` component of `calculateQuartiles` (the Type-6 interpolated
quartile at position `(n+1)/2`). -/
theorem c5_median_eq_q2 (data : List ℝ) (hd : data ≠ []) :
    calculateMedian data = Except.map Quartiles.q2 (calculateQuartiles data) := by
  have hne : ¬(data.length = 0) := by
    simpa [List.length_eq_zero] using hd
  have hsne : sortAsc data ≠ [] := by
    have := sortAsc_length data
    intro h
    rw [h] at this
    simp at this
    exact hne this.symm
  simp only [calculateMedian, calculateQuartiles, if_neg hne, Except.map]
  rw [interpolate_mid (sortAsc data) hsne]
  split_ifs <;> rfl

/-- Claim C5 witness at a concrete input. -/
theorem c5_median_eq_q2_witness :
    calculateMedian [(1 : ℝ)] =
      Except.map Quartiles.q2 (calculateQuartiles [(1 : ℝ)]) :=
  c5_median_eq_q2 [(1 : ℝ)] (by simp)

/-- Ordering of the three quartile interpolation positions over a sorted
list: `(n+1)/4 ≤ (n+1)/2 ≤ 3(n+1)/4` and the clamped interpolation
preserves the order. -/
theorem interpolate_quartile_mono (s : List ℝ)
    (hs : List.Sorted (fun a b => a ≤ b) s) (hne : s ≠ []) :
    interpolate s (((s.length : ℝ) + 1) / 4) ≤
        interpolate s (((s.length : ℝ) + 1) / 2) ∧
    interpolate s (((s.length : ℝ) + 1) / 2) ≤
        interpolate s (3 * ((s.length : ℝ) + 1) / 4) := by
  have hn : 0 < s.length := List.length_pos.mpr hne
  have hN1 : (1 : ℝ) ≤ (s.length : ℝ) := by exact_mod_cast hn
  have h1i2 : ¬(⌊((s.length : ℝ) + 1) / 2⌋ - 1 < 0) := by
    have : (1 : ℤ) ≤ ⌊((s.length : ℝ) + 1) / 2⌋ := by
      apply Int.le_floor.mpr
      push_cast
      linarith
    omega
  have h2i2 : ¬((s.length : ℤ) ≤ ⌈((s.length : ℝ) + 1) / 2⌉ - 1) := by
    have : ⌈((s.length : ℝ) + 1) / 2⌉ ≤ (s.length : ℤ) := by
      apply Int.ceil_le.mpr
      push_cast
      linarith
    omega
  constructor
  · by_cases hA : ⌊((s.length : ℝ) + 1) / 4⌋ - 1 < 0
    · rw [interpolate_of_low s _ hA]
      exact interpolate_ge_head s hs hne _
    · have hfl1 : (1 : ℤ) ≤ ⌊((s.length : ℝ) + 1) / 4⌋ := by omega
      have hi1ge : (1 : ℝ) ≤ ((s.length : ℝ) + 1) / 4 := by
        have := Int.le_floor.mp hfl1
        exact_mod_cast this
      have hN3 : (3 : ℝ) ≤ (s.length : ℝ) := by linarith
      have h2i1 : ¬((s.length : ℤ) ≤ ⌈((s.length : ℝ) + 1) / 4⌉ - 1) := by
        have : ⌈((s.length : ℝ) + 1) / 4⌉ ≤ (s.length : ℤ) := by
          apply Int.ceil_le.mpr
          push_cast
          linarith
        omega
      have hc : interpolate s (((s.length : ℝ) + 1) / 4) ≤
          s.getD (⌈((s.length : ℝ) + 1) / 4⌉ - 1).toNat 0 :=
        interpolate_le_get_ceil s hs _ hA h2i1
      have hf : s.getD (⌊((s.length : ℝ) + 1) / 2⌋ - 1).toNat 0 ≤
          interpolate s (((s.length : ℝ) + 1) / 2) :=
        get_floor_le_interpolate s hs _ h1i2 h2i2
      have hle : ⌈((s.length : ℝ) + 1) / 4⌉ ≤ ⌊((s.length : ℝ) + 1) / 2⌋ := by
        apply Int.le_floor.mpr
        have hlt := Int.ceil_lt_add_one (((s.length : ℝ) + 1) / 4)
        have : ((s.length : ℝ) + 1) / 4 + 1 ≤ ((s.length : ℝ) + 1) / 2 := by
          linarith
        linarith
      have hceil2 : ⌈((s.length : ℝ) + 1) / 2⌉ ≤ (s.length : ℤ) := by omega
      have hflc2 := Int.floor_le_ceil (((s.length : ℝ) + 1) / 2)
      have hmid : s.getD (⌈((s.length : ℝ) + 1) / 4⌉ - 1).toNat 0 ≤
          s.getD (⌊((s.length : ℝ) + 1) / 2⌋ - 1).toNat 0 :=
        sorted_getD_le s hs _ _ (by omega) (by omega)
      linarith
  · have h1i3 : ¬(⌊3 * ((s.length : ℝ) + 1) / 4⌋ - 1 < 0) := by
      have : (1 : ℤ) ≤ ⌊3 * ((s.length : ℝ) + 1) / 4⌋ := by
        apply Int.le_floor.mpr
        push_cast
        linarith
      omega
    by_cases hB : (s.length : ℤ) ≤ ⌈3 * ((s.length : ℝ) + 1) / 4⌉ - 1
    · rw [interpolate_of_high s _ h1i3 hB]
      exact interpolate_le_last s hs hne _
    · have hceil3 : ⌈3 * ((s.length : ℝ) + 1) / 4⌉ ≤ (s.length : ℤ) := by omega
      have hi3le : 3 * ((s.length : ℝ) + 1) / 4 ≤ (s.length : ℝ) := by
        have h1 := Int.le_ceil (3 * ((s.length : ℝ) + 1) / 4)
        have h2 : ((⌈3 * ((s.length : ℝ) + 1) / 4⌉ : ℤ) : ℝ) ≤ (s.length : ℝ) := by
          exact_mod_cast hceil3
        linarith
      have hN3 : (3 : ℝ) ≤ (s.length : ℝ) := by linarith
      have hc : interpolate s (((s.length : ℝ) + 1) / 2) ≤
          s.getD (⌈((s.length : ℝ) + 1) / 2⌉ - 1).toNat 0 :=
        interpolate_le_get_ceil s hs _ h1i2 h2i2
      have hf : s.getD (⌊3 * ((s.length : ℝ) + 1) / 4⌋ - 1).toNat 0 ≤
          interpolate s (3 * ((s.length : ℝ) + 1) / 4) :=
        get_floor_le_interpolate s hs _ h1i3 hB
      have hle : ⌈((s.length : ℝ) + 1) / 2⌉ ≤ ⌊3 * ((s.length : ℝ) + 1) / 4⌋ := by
        apply Int.le_floor.mpr
        have hlt := Int.ceil_lt_add_one (((s.length : ℝ) + 1) / 2)
        have : ((s.length : ℝ) + 1) / 2 + 1 ≤ 3 * ((s.length : ℝ) + 1) / 4 := by
          linarith
        linarith
      have hflc3 := Int.floor_le_ceil (3 * ((s.length : ℝ) + 1) / 4)
      have hmid : s.getD (⌈((s.length : ℝ) + 1) / 2⌉ - 1).toNat 0 ≤
          s.getD (⌊3 * ((s.length : ℝ) + 1) / 4⌋ - 1).toNat 0 :=
        sorted_getD_le s hs _ _ (by omega) (by omega)
      linarith

/-- Claim C6: for every non-empty sequence, `calculateQuartiles` returns
a `Quartiles` value with `q1 ≤ q2 ≤ q3`. -/
theorem c6_quartiles_ordered (data : List ℝ) (hd : data ≠ []) :
    ∃ q, calculateQuartiles data = Except.ok q ∧ q.q1 ≤ q.q2 ∧ q.q2 ≤ q.q3 := by
  have hne : ¬(data.length = 0) := by
    simpa [List.length_eq_zero] using hd
  have hsne : sortAsc data ≠ [] := by
    intro h
    have := sortAsc_length data
    rw [h] at this
    simp at this
    exact hne this.symm
  have hq : calculateQuartiles data = Except.ok (Quartiles.mk
      (interpolate (sortAsc data) ((((sortAsc data).length : ℝ) + 1) / 4))
      (interpolate (sortAsc data) ((((sortAsc data).length : ℝ) + 1) / 2))
      (interpolate (sortAsc data) (3 * (((sortAsc data).length : ℝ) + 1) / 4))) := by
    simp only [calculateQuartiles, if_neg hne]
  have hmono := interpolate_quartile_mono (sortAsc data) (sortAsc_sorted data) hsne
  exact ⟨_, hq, hmono.1, hmono.2⟩

/-- Claim C6 witness at a concrete input. -/
theorem c6_quartiles_ordered_witness :
    ∃ q, calculateQuartiles [(1 : ℝ)] = Except.ok q ∧ q.q1 ≤ q.q2 ∧ q.q2 ≤ q.q3 :=
  c6_quartiles_ordered [(1 : ℝ)] (by simp)
